import Mathlib

/-!
Verification of the retrieval-augmented context subsystem of the
spitchagent repository (`vector_search.py`, `spitchagent.py`).

Modelling conventions:
* Python strings are modelled as `List Char` (Python indexes/slices by code
  point); `text[i : i + n]` is `(text.drop i).take n`.
* The embedder (`SentenceTransformer.encode`) is an external dependency and
  may fail; it is modelled as a function argument returning `Except Err _`.
* Embedding vectors are `List ℚ`; the similarity metric computed by the
  store is kept as an abstract parameter `sim` (the spec names cosine as the
  baseline metric but no claim depends on the metric itself).
* The Supabase tables and the `search_document_chunks` RPC are not part of
  the repository sources; they are modelled from the spec's Document Store
  interface (see the doc comments of the corresponding definitions).
* Python `round(x, 3)` on a similarity score is modelled on ℚ as rounding
  to the nearest multiple of 1/1000 (half away from zero on floats is
  abstracted; no claim depends on tie behaviour).
-/

/-- Error conditions of the spec's taxonomy (§7) plus the `ValueError`
raised by Python's `range` on a zero step.  In the Python sources both the
empty-baseline failure and the zero-step failure surface as `ValueError`;
they are kept distinct here so theorems can name which one occurs. -/
inductive Err where
  | EmbeddingFailure
  | StorageFailure
  | EmptyContextFailure
  | ValueErrorZeroStep
deriving DecidableEq, Repr

/-- Number of elements of Python `range(0, len, cs)` for `cs ≥ 1`:
the ceiling of `len / cs`. -/
def numChunks (len cs : Nat) : Nat :=
  (len + cs - 1) / cs

/-- The chunking comprehension of `embed_and_store_document`
(src/vector_search.py line 24):
`[text[i : i + chunk_size] for i in range(0, len(text), chunk_size)]`.
For `cs ≥ 1`, `range(0, len, cs)` is `[0, cs, 2*cs, ...]` with
`numChunks len cs` elements, and `text[i : i + cs]` is drop-then-take. -/
def chunksList (cs : Nat) (text : List Char) : List (List Char) :=
  (List.range (numChunks text.length cs)).map fun i => (text.drop (i * cs)).take cs

/-- The chunking step including Python's behaviour at `chunk_size = 0`:
`range(0, len(text), 0)` raises `ValueError` (zero step), for empty and
non-empty `text` alike. -/
def chunkText (cs : Nat) (text : List Char) : Except Err (List (List Char)) :=
  if cs = 0 then Except.error Err.ValueErrorZeroStep
  else Except.ok (chunksList cs text)

lemma numChunks_zero_len (cs : Nat) (h : 1 ≤ cs) : numChunks 0 cs = 0 := by
  unfold numChunks
  exact Nat.div_eq_of_lt (by omega)

lemma numChunks_succ (len cs : Nat) (h : 1 ≤ cs) (hl : 0 < len) :
    numChunks len cs = numChunks (len - cs) cs + 1 := by
  unfold numChunks
  rcases le_or_lt len cs with hle | hlt
  · have h1 : len - cs = 0 := by omega
    rw [h1]
    have h2 : (0 + cs - 1) / cs = 0 := Nat.div_eq_of_lt (by omega)
    rw [h2]
    have h3 : len + cs - 1 = (len - 1) + 1 * cs := by omega
    rw [h3, Nat.add_mul_div_right _ _ (by omega : 0 < cs)]
    have h4 : (len - 1) / cs = 0 := Nat.div_eq_of_lt (by omega)
    omega
  · have h3 : len + cs - 1 = (len - cs + cs - 1) + cs := by omega
    rw [h3, Nat.add_div_right _ (by omega : 0 < cs)]

lemma chunksList_nil (cs : Nat) (h : 1 ≤ cs) : chunksList cs [] = [] := by
  unfold chunksList
  rw [List.length_nil, numChunks_zero_len cs h]
  rfl

lemma chunksList_cons (cs : Nat) (text : List Char) (h : 1 ≤ cs) (ht : text ≠ []) :
    chunksList cs text = text.take cs :: chunksList cs (text.drop cs) := by
  unfold chunksList
  have hl : 0 < text.length := List.length_pos.mpr ht
  rw [List.length_drop, numChunks_succ text.length cs h hl, List.range_succ_eq_map]
  simp only [List.map_cons, List.map_map]
  congr 1
  · simp
  · apply List.map_congr_left
    intro i _
    simp only [Function.comp_apply]
    have h1 : (i + 1) * cs = cs + i * cs := by ring
    rw [List.drop_drop, h1]

lemma join_chunksList (cs : Nat) (h : 1 ≤ cs) (text : List Char) :
    (chunksList cs text).flatten = text := by
  have H : ∀ n (l : List Char), l.length ≤ n → (chunksList cs l).flatten = l := by
    intro n
    induction n with
    | zero =>
      intro l hlen
      have hl : l = [] := by cases l <;> simp_all
      rw [hl, chunksList_nil cs h]
      rfl
    | succ n ih =>
      intro l hlen
      by_cases hl : l = []
      · rw [hl, chunksList_nil cs h]
        rfl
      · have hpos : 0 < l.length := List.length_pos.mpr hl
        rw [chunksList_cons cs l h hl, List.flatten_cons, ih (l.drop cs) ?_,
          List.take_append_drop]
        rw [List.length_drop]
        omega
  exact H text.length text le_rfl

lemma chunksList_get (cs : Nat) (text : List Char) (k : Nat)
    (hk : k < (chunksList cs text).length) :
    (chunksList cs text).get ⟨k, hk⟩ = (text.drop (k * cs)).take cs := by
  unfold chunksList at hk ⊢
  simp only [List.get_eq_getElem, List.getElem_map, List.getElem_range]

lemma length_chunksList (cs : Nat) (text : List Char) :
    (chunksList cs text).length = numChunks text.length cs := by
  unfold chunksList
  rw [List.length_map, List.length_range]

/-- C2: for every text and chunk size ≥ 1, the chunking step splits the text
into contiguous spans in source order (chunk `k` is the slice starting at
offset `k * cs`), of length at most `cs` with every non-final chunk of
length exactly `cs`; the in-order concatenation of the chunks is the
original text, and empty text yields no chunks. -/
theorem chunking_spec (text : List Char) (cs : Nat) (h : 1 ≤ cs) :
    chunkText cs text = Except.ok (chunksList cs text)
    ∧ (chunksList cs text).flatten = text
    ∧ (∀ c ∈ chunksList cs text, c.length ≤ cs)
    ∧ (∀ k (hk : k < (chunksList cs text).length),
        (chunksList cs text).get ⟨k, hk⟩ = (text.drop (k * cs)).take cs)
    ∧ (∀ k (hk : k < (chunksList cs text).length),
        k + 1 < (chunksList cs text).length →
        ((chunksList cs text).get ⟨k, hk⟩).length = cs)
    ∧ (text = [] → chunksList cs text = []) := by
  refine ⟨?_, join_chunksList cs h text, ?_, chunksList_get cs text, ?_, ?_⟩
  · unfold chunkText
    rw [if_neg (by omega)]
  · intro c hc
    unfold chunksList at hc
    obtain ⟨i, _, rfl⟩ := List.mem_map.mp hc
    rw [List.length_take]
    exact min_le_left _ _
  · intro k hk hk1
    rw [chunksList_get cs text k hk, List.length_take, List.length_drop]
    rw [length_chunksList] at hk1
    have hdiv : k + 2 ≤ numChunks text.length cs := by omega
    unfold numChunks at hdiv
    rw [Nat.le_div_iff_mul_le (by omega : 0 < cs)] at hdiv
    have hmul : (k + 2) * cs = k * cs + 2 * cs := by ring
    rw [hmul] at hdiv
    omega
  · intro ht
    rw [ht, chunksList_nil cs h]

/-- A row of the `documents` table: `insert({"user_id": ..., "filename": ...})`
returns the row with its store-assigned id (src/vector_search.py lines 18-22). -/
structure Document where
  id : Nat
  user_id : String
  filename : String
deriving DecidableEq, Repr

/-- A row of the `document_chunks` table (src/vector_search.py lines 30-38). -/
structure ChunkRow where
  document_id : Nat
  user_id : String
  chunk_index : Nat
  chunk_text : List Char
  embedding : List ℚ
deriving DecidableEq, Repr

/-- The persistent Supabase state visible to this service: the two tables,
plus the id counter the store uses to assign document ids. -/
structure Store where
  documents : List Document
  chunks : List ChunkRow
  nextId : Nat
deriving DecidableEq, Repr

/-- Modelled from the spec: the store operation
`create_document(user_id, filename) → document_id` backing the
`documents.insert(...).execute().data[0]` call; the inserted row is returned
with a fresh store-assigned id. -/
def create_document (st : Store) (uid fn : String) : Document × Store :=
  let doc : Document := { id := st.nextId, user_id := uid, filename := fn }
  (doc, { documents := st.documents ++ [doc], chunks := st.chunks, nextId := st.nextId + 1 })

/-- Modelled from the spec: the store operation `insert_chunks(batch) → ack`
backing `document_chunks.insert(rows).execute()`. -/
def insert_chunks (st : Store) (rows : List ChunkRow) : Store :=
  { documents := st.documents, chunks := st.chunks ++ rows, nextId := st.nextId }

/-- The row-building loop of `embed_and_store_document`
(src/vector_search.py lines 28-38):
`for idx, (chunk, emb) in enumerate(zip(chunks, embeddings)): rows.append(...)`. -/
def mkRows (docId : Nat) (uid : String) (chunks : List (List Char))
    (embs : List (List ℚ)) : List ChunkRow :=
  (chunks.zip embs).enum.map fun p =>
    { document_id := docId, user_id := uid, chunk_index := p.1,
      chunk_text := p.2.1, embedding := p.2.2 }

/-- The value returned by `embed_and_store_document`:
`{"document_id": doc["id"], "chunks": len(rows)}`. -/
structure IndexResult where
  document_id : Nat
  chunks : Nat
deriving DecidableEq, Repr

/-- `RAGService.embed_and_store_document` (src/vector_search.py lines 15-42).
The embedder `model.encode(chunks, convert_to_numpy=True).tolist()` is the
function argument `enc`; an exception raised by the chunking comprehension or
by the embedder propagates (`Except.error`), leaving the store in the state
reached so far (the document row is inserted before either can fail). -/
def embed_and_store_document (enc : List (List Char) → Except Err (List (List ℚ)))
    (st : Store) (user_id filename : String) (text : List Char) (chunk_size : Nat) :
    Store × Except Err IndexResult :=
  let ds := create_document st user_id filename
  match chunkText chunk_size text with
  | Except.error e => (ds.2, Except.error e)
  | Except.ok chunks =>
    match enc chunks with
    | Except.error e => (ds.2, Except.error e)
    | Except.ok embeddings =>
      let rows := mkRows ds.1.id user_id chunks embeddings
      (insert_chunks ds.2 rows, Except.ok { document_id := ds.1.id, chunks := rows.length })

/-- A row returned by the store-side similarity search; `get_context` reads
`chunk_text` and `similarity` from it, and the RPC scopes rows by `user_id`. -/
structure SearchResult where
  user_id : String
  chunk_text : List Char
  similarity : ℚ
deriving DecidableEq, Repr

/-- Modelled from the spec: the Supabase RPC `search_document_chunks`
(not part of the repository sources).  Per the Retriever design it computes
a similarity score between the query embedding and every chunk embedding
scoped to `user_id_param`, and returns the `match_count` highest-scoring
rows in descending-similarity order (`match_count ≤ 0` yields no rows).
The metric `sim` is abstract (cosine similarity is the spec's baseline). -/
def search_document_chunks (sim : List ℚ → List ℚ → ℚ) (st : Store)
    (query_embedding : List ℚ) (match_count : Int) (uid : String) : List SearchResult :=
  (List.insertionSort (fun a b => b.similarity ≤ a.similarity)
    ((st.chunks.filter fun c => c.user_id == uid).map fun c =>
      { user_id := c.user_id, chunk_text := c.chunk_text,
        similarity := sim query_embedding c.embedding })).take match_count.toNat

/-- `RAGService.search` (src/vector_search.py lines 47-63): embed the query
(`enc1`, an exception propagates), then delegate to the RPC; `response.data
or []` is the identity in this model, where the RPC always yields a list. -/
def search (sim : List ℚ → List ℚ → ℚ) (enc1 : List Char → Except Err (List ℚ))
    (st : Store) (query : List Char) (uid : String) (limit : Int) :
    Except Err (List SearchResult) :=
  match enc1 query with
  | Except.error e => Except.error e
  | Except.ok qe => Except.ok (search_document_chunks sim st qe limit uid)

/-- Python `round(x, 3)` on a similarity score, modelled on ℚ: the nearest
multiple of 1/1000 (ties abstracted to round-half-up). -/
def round3 (q : ℚ) : ℚ :=
  ((q * 1000 + 1 / 2).floor : ℚ) / 1000

/-- One formatted block of `get_context` (src/vector_search.py line 77):
`f"[Chunk]\n{c['chunk_text']} (score={round(c['similarity'],3)})"`. -/
def formatChunk (c : SearchResult) : String :=
  "[Chunk]\n" ++ String.mk c.chunk_text ++ " (score=" ++ toString (round3 c.similarity) ++ ")"

/-- Python `sep.join(parts)`. -/
def joinSep (sep : String) : List String → String
  | [] => ""
  | [s] => s
  | s :: s2 :: rest => s ++ sep ++ joinSep sep (s2 :: rest)

/-- `RAGService.get_context` (src/vector_search.py lines 68-79): search, then
return `""` when there are no results, else the separator-joined blocks. -/
def get_context (sim : List ℚ → List ℚ → ℚ) (enc1 : List Char → Except Err (List ℚ))
    (st : Store) (query : List Char) (uid : String) (max_chunks : Int) :
    Except Err String :=
  match search sim enc1 st query uid max_chunks with
  | Except.error e => Except.error e
  | Except.ok chunks =>
    if chunks.isEmpty then Except.ok ""
    else Except.ok (joinSep "\n\n---\n\n" (chunks.map formatChunk))

/-- The context-bearing state of `SalesAgent` that the claims are about:
the owning user id and the session-initialization baseline
`business_context` (src/spitchagent.py lines 26-37). -/
structure AgentState where
  user_id : String
  business_context : String
deriving DecidableEq, Repr

/-- `SalesAgent._load_business_context` (src/spitchagent.py lines 68-80):
one broad fetch with query `"Company overview"` and `max_chunks=15`; an empty
context raises `ValueError` (the spec's `EmptyContextFailure`). -/
def load_business_context (sim : List ℚ → List ℚ → ℚ)
    (enc1 : List Char → Except Err (List ℚ)) (st : Store) (uid : String) :
    Except Err String :=
  match get_context sim enc1 st "Company overview".data uid 15 with
  | Except.error e => Except.error e
  | Except.ok ctx =>
    if ctx = "" then Except.error Err.EmptyContextFailure else Except.ok ctx

/-- The context-loading part of `SalesAgent.__init__`
(src/spitchagent.py lines 26-66): construction fails when
`_load_business_context` raises, so no agent exists for the session. -/
def mkSalesAgent (sim : List ℚ → List ℚ → ℚ)
    (enc1 : List Char → Except Err (List ℚ)) (st : Store) (uid : String) :
    Except Err AgentState :=
  match load_business_context sim enc1 st uid with
  | Except.error e => Except.error e
  | Except.ok ctx => Except.ok { user_id := uid, business_context := ctx }

/-- The f-string of the truthy branch of `get_context_instructions`
(src/spitchagent.py lines 138-146). -/
def withContextInstructions (query specific business : String) : String :=
  "The prospect just said: \"" ++ query ++ "\"\n\n" ++
  "MOST RELEVANT INFORMATION FOR THIS RESPONSE:\n" ++ specific ++ "\n\n" ++
  "GENERAL BUSINESS CONTEXT (if needed):\n" ++ business ++ "\n\n" ++
  "Respond naturally to what they said using the most relevant information first. Work toward scheduling or closing."

/-- The f-string of the fallback branch of `get_context_instructions`
(src/spitchagent.py lines 149-154). -/
def fallbackInstructions (query business : String) : String :=
  "The prospect just said: \"" ++ query ++ "\"\n\n" ++
  "BUSINESS CONTEXT:\n" ++ business ++ "\n\n" ++
  "Respond naturally to what they said using your business knowledge. Work toward scheduling or closing."

/-- `SalesAgent.get_context_instructions` (src/spitchagent.py lines 132-154):
a per-turn fetch with `max_chunks=5`; a non-empty context is injected, an
empty context falls back to the cached baseline.  The method never assigns
to the agent, so the (unchanged) agent state is returned alongside the
instructions; an exception raised inside `get_context` propagates. -/
def get_context_instructions (sim : List ℚ → List ℚ → ℚ)
    (enc1 : List Char → Except Err (List ℚ)) (st : Store) (a : AgentState)
    (query : String) : Except Err (String × AgentState) :=
  match get_context sim enc1 st query.data a.user_id 5 with
  | Except.error e => Except.error e
  | Except.ok specific =>
    if specific = "" then Except.ok (fallbackInstructions query a.business_context, a)
    else Except.ok (withContextInstructions query specific a.business_context, a)

/-- Dot product, a concrete similarity metric used to instantiate witnesses. -/
def simDot : List ℚ → List ℚ → ℚ
  | [], _ => 0
  | _ :: _, [] => 0
  | a :: as, b :: bs => a * b + simDot as bs

/-- A batch embedder that yields one fixed vector per input chunk. -/
def encBatchOk : List (List Char) → Except Err (List (List ℚ)) :=
  fun chunks => Except.ok (chunks.map fun _ => [1])

/-- A single-text embedder that always succeeds. -/
def encOneOk : List Char → Except Err (List ℚ) :=
  fun _ => Except.ok [1]

/-- A batch embedder that always fails (embedder unavailable). -/
def encBatchFail : List (List Char) → Except Err (List (List ℚ)) :=
  fun _ => Except.error Err.EmbeddingFailure

/-- A single-text embedder that always fails (embedder unavailable). -/
def encOneFail : List Char → Except Err (List ℚ) :=
  fun _ => Except.error Err.EmbeddingFailure

/-- The store with no documents and no chunks. -/
def emptyStore : Store :=
  { documents := [], chunks := [], nextId := 0 }

/-- A store holding one indexed document for each of two users. -/
def storeAB : Store :=
  { documents := [{ id := 0, user_id := "alice", filename := "a.txt" },
                  { id := 1, user_id := "bob", filename := "b.txt" }],
    chunks := [{ document_id := 0, user_id := "alice", chunk_index := 0,
                 chunk_text := "alpha facts".data, embedding := [1, 2] },
               { document_id := 1, user_id := "bob", chunk_index := 0,
                 chunk_text := "beta facts".data, embedding := [2, 1] }],
    nextId := 2 }

/-- C9: if the batched embedder call fails inside `embed_and_store_document`,
the failure propagates to the caller, no chunk rows are persisted, and the
document row created before the failure remains as an orphan. -/
theorem embed_failure_no_chunks (enc : List (List Char) → Except Err (List (List ℚ)))
    (st : Store) (uid fn : String) (text : List Char) (cs : Nat) (e : Err)
    (hcs : 1 ≤ cs) (henc : enc (chunksList cs text) = Except.error e) :
    embed_and_store_document enc st uid fn text cs =
      ({ documents := st.documents ++ [{ id := st.nextId, user_id := uid, filename := fn }],
         chunks := st.chunks, nextId := st.nextId + 1 },
       Except.error e) := by
  have h0 : ¬cs = 0 := by omega
  simp [embed_and_store_document, create_document, chunkText, h0, henc]

theorem embed_failure_no_chunks_witness :
    embed_and_store_document encBatchFail emptyStore "u1" "f.txt" "hello".data 3 =
      ({ documents := [{ id := 0, user_id := "u1", filename := "f.txt" }],
         chunks := [], nextId := 1 },
       Except.error Err.EmbeddingFailure) :=
  embed_failure_no_chunks encBatchFail emptyStore "u1" "f.txt" "hello".data 3
    Err.EmbeddingFailure (by omega) rfl

/-- C10: `embed_and_store_document` with `chunk_size = 0` and non-empty text
fails with the `ValueError` Python's `range` raises on a zero step, after the
document row has been created: the store is left with an orphan document and
no new chunk rows. -/
theorem zero_chunk_size_orphan (enc : List (List Char) → Except Err (List (List ℚ)))
    (st : Store) (uid fn : String) (text : List Char) (_ht : text ≠ []) :
    embed_and_store_document enc st uid fn text 0 =
      ({ documents := st.documents ++ [{ id := st.nextId, user_id := uid, filename := fn }],
         chunks := st.chunks, nextId := st.nextId + 1 },
       Except.error Err.ValueErrorZeroStep) := by
  simp [embed_and_store_document, create_document, chunkText]

theorem zero_chunk_size_orphan_witness :
    embed_and_store_document encBatchOk emptyStore "u1" "f.txt" "hi".data 0 =
      ({ documents := [{ id := 0, user_id := "u1", filename := "f.txt" }],
         chunks := [], nextId := 1 },
       Except.error Err.ValueErrorZeroStep) :=
  zero_chunk_size_orphan encBatchOk emptyStore "u1" "f.txt" "hi".data (by decide)

/-- C4: at session initialization, an empty baseline context makes agent
construction fail with the `EmptyContextFailure` condition (so the session
never starts), and a successfully constructed agent never carries an empty
baseline. -/
theorem empty_baseline_fatal (sim : List ℚ → List ℚ → ℚ)
    (enc1 : List Char → Except Err (List ℚ)) (st : Store) (uid : String) :
    (get_context sim enc1 st "Company overview".data uid 15 = Except.ok "" →
      mkSalesAgent sim enc1 st uid = Except.error Err.EmptyContextFailure)
    ∧ (∀ a, mkSalesAgent sim enc1 st uid = Except.ok a → a.business_context ≠ "") := by
  constructor
  · intro h
    simp [mkSalesAgent, load_business_context, h]
  · intro a ha hempty
    unfold mkSalesAgent load_business_context at ha
    cases hg : get_context sim enc1 st "Company overview".data uid 15 with
    | error e => simp [hg] at ha
    | ok ctx =>
      simp only [hg] at ha
      by_cases hc : ctx = ""
      · simp [hc] at ha
      · simp only [if_neg hc] at ha
        injection ha with h2
        rw [← h2] at hempty
        exact hc hempty

theorem empty_baseline_fatal_witness :
    mkSalesAgent simDot encOneOk emptyStore "u1" = Except.error Err.EmptyContextFailure :=
  (empty_baseline_fatal simDot encOneOk emptyStore "u1").1 rfl

/-- C5: a per-turn query whose retrieval returns no results yields the
fallback instructions built from the cached session baseline, and the agent
state — hence the cached baseline itself — is returned unchanged. -/
theorem per_turn_empty_falls_back (sim : List ℚ → List ℚ → ℚ)
    (enc1 : List Char → Except Err (List ℚ)) (st : Store) (a : AgentState)
    (query : String)
    (hs : search sim enc1 st query.data a.user_id 5 = Except.ok []) :
    get_context_instructions sim enc1 st a query =
      Except.ok (fallbackInstructions query a.business_context, a) := by
  simp [get_context_instructions, get_context, hs]

theorem per_turn_empty_falls_back_witness :
    get_context_instructions simDot encOneOk emptyStore
        { user_id := "u1", business_context := "BASE" } "hi" =
      Except.ok (fallbackInstructions "hi" "BASE",
        { user_id := "u1", business_context := "BASE" }) :=
  per_turn_empty_falls_back simDot encOneOk emptyStore
    { user_id := "u1", business_context := "BASE" } "hi" rfl

/-- C6: evaluation at the failing input: when the per-turn query embedding
fails, `get_context_instructions` propagates the failure instead of
returning instructions — there is no handler around the per-turn retrieval,
so the turn aborts rather than degrading to the cached baseline. -/
theorem per_turn_failure_aborts_turn :
    get_context_instructions simDot encOneFail emptyStore
        { user_id := "u1", business_context := "BASE" } "hello" =
      Except.error Err.EmbeddingFailure
    ∧ ∀ p, get_context_instructions simDot encOneFail emptyStore
        { user_id := "u1", business_context := "BASE" } "hello" ≠ Except.ok p := by
  refine ⟨rfl, ?_⟩
  intro p hp
  simp [get_context_instructions, get_context, search, encOneFail] at hp

lemma enumMapFst {α : Type} (l : List α) :
    l.enum.map Prod.fst = List.range l.length := by
  rw [List.enum_eq_zip_range]
  apply List.map_fst_zip
  simp [List.length_range]

lemma enumMapSnd {α : Type} (l : List α) :
    l.enum.map Prod.snd = l := by
  rw [List.enum_eq_zip_range]
  apply List.map_snd_zip
  simp [List.length_range]

lemma mkRows_length (d : Nat) (uid : String) (cks : List (List Char))
    (embs : List (List ℚ)) :
    (mkRows d uid cks embs).length = min cks.length embs.length := by
  simp [mkRows, List.enum_length, List.length_zip]

lemma mkRows_map_index (d : Nat) (uid : String) (cks : List (List Char))
    (embs : List (List ℚ)) :
    (mkRows d uid cks embs).map (fun r => r.chunk_index) =
      List.range (cks.zip embs).length := by
  unfold mkRows
  rw [List.map_map]
  exact enumMapFst (cks.zip embs)

lemma mkRows_map_text (d : Nat) (uid : String) (cks : List (List Char))
    (embs : List (List ℚ)) (h : cks.length ≤ embs.length) :
    (mkRows d uid cks embs).map (fun r => r.chunk_text) = cks := by
  unfold mkRows
  rw [List.map_map]
  have h1 : ((fun r : ChunkRow => r.chunk_text) ∘ fun p : Nat × (List Char × List ℚ) =>
      ({ document_id := d, user_id := uid, chunk_index := p.1,
         chunk_text := p.2.1, embedding := p.2.2 } : ChunkRow)) =
      (Prod.fst ∘ Prod.snd) := rfl
  rw [h1, ← List.map_map, enumMapSnd, List.map_fst_zip cks embs h]

lemma mkRows_fields (d : Nat) (uid : String) (cks : List (List Char))
    (embs : List (List ℚ)) (r : ChunkRow) (hr : r ∈ mkRows d uid cks embs) :
    r.user_id = uid ∧ r.document_id = d := by
  unfold mkRows at hr
  obtain ⟨p, _, rfl⟩ := List.mem_map.mp hr
  exact ⟨rfl, rfl⟩

lemma embed_ok_eq (enc : List (List Char) → Except Err (List (List ℚ)))
    (st : Store) (uid fn : String) (text : List Char) (cs : Nat)
    (embs : List (List ℚ)) (hcs : ¬cs = 0)
    (henc : enc (chunksList cs text) = Except.ok embs) :
    embed_and_store_document enc st uid fn text cs =
      ({ documents := st.documents ++ [{ id := st.nextId, user_id := uid, filename := fn }],
         chunks := st.chunks ++ mkRows st.nextId uid (chunksList cs text) embs,
         nextId := st.nextId + 1 },
       Except.ok { document_id := st.nextId,
                   chunks := (mkRows st.nextId uid (chunksList cs text) embs).length }) := by
  simp [embed_and_store_document, create_document, chunkText, hcs, henc, insert_chunks]

/-- C7: a successful `embed_and_store_document` call with `chunk_size ≥ 1`
persists chunk rows whose `chunk_index` values form the contiguous range
`0..n-1` in source order (row `k` carries chunk `k`), and the returned
record reports the new document id and `chunks = n`, the number of chunks
produced from the text. -/
theorem index_contract (enc : List (List Char) → Except Err (List (List ℚ)))
    (st : Store) (uid fn : String) (text : List Char) (cs : Nat)
    (embs : List (List ℚ)) (hcs : 1 ≤ cs)
    (henc : enc (chunksList cs text) = Except.ok embs)
    (hlen : embs.length = (chunksList cs text).length) :
    embed_and_store_document enc st uid fn text cs =
      ({ documents := st.documents ++ [{ id := st.nextId, user_id := uid, filename := fn }],
         chunks := st.chunks ++ mkRows st.nextId uid (chunksList cs text) embs,
         nextId := st.nextId + 1 },
       Except.ok { document_id := st.nextId, chunks := (chunksList cs text).length })
    ∧ (mkRows st.nextId uid (chunksList cs text) embs).map (fun r => r.chunk_index)
        = List.range ((chunksList cs text).length)
    ∧ (mkRows st.nextId uid (chunksList cs text) embs).map (fun r => r.chunk_text)
        = chunksList cs text := by
  have h0 : ¬cs = 0 := by omega
  have hzip : ((chunksList cs text).zip embs).length = (chunksList cs text).length := by
    rw [List.length_zip, hlen]
    exact min_self _
  have hlen2 : (mkRows st.nextId uid (chunksList cs text) embs).length =
      (chunksList cs text).length := by
    rw [mkRows_length, hlen]
    exact min_self _
  refine ⟨?_, ?_, mkRows_map_text _ _ _ _ (by omega)⟩
  · rw [embed_ok_eq enc st uid fn text cs embs h0 henc, hlen2]
  · rw [mkRows_map_index, hzip]

theorem index_contract_witness :
    embed_and_store_document encBatchOk emptyStore "u1" "doc.txt" "ABCDEFGHIJ".data 3 =
      ({ documents := [{ id := 0, user_id := "u1", filename := "doc.txt" }],
         chunks := mkRows 0 "u1" (chunksList 3 "ABCDEFGHIJ".data)
           ((chunksList 3 "ABCDEFGHIJ".data).map fun _ => [1]),
         nextId := 1 },
       Except.ok { document_id := 0, chunks := (chunksList 3 "ABCDEFGHIJ".data).length })
    ∧ (mkRows 0 "u1" (chunksList 3 "ABCDEFGHIJ".data)
         ((chunksList 3 "ABCDEFGHIJ".data).map fun _ => [1])).map (fun r => r.chunk_index)
        = List.range ((chunksList 3 "ABCDEFGHIJ".data).length) :=
  ⟨(index_contract encBatchOk emptyStore "u1" "doc.txt" "ABCDEFGHIJ".data 3
      ((chunksList 3 "ABCDEFGHIJ".data).map fun _ => [1]) (by omega) rfl (by simp)).1,
   (index_contract encBatchOk emptyStore "u1" "doc.txt" "ABCDEFGHIJ".data 3
      ((chunksList 3 "ABCDEFGHIJ".data).map fun _ => [1]) (by omega) rfl (by simp)).2.1⟩

lemma search_result_scoped (sim : List ℚ → List ℚ → ℚ) (st : Store)
    (qe : List ℚ) (k : Int) (uid : String) (r : SearchResult)
    (hr : r ∈ search_document_chunks sim st qe k uid) : r.user_id = uid := by
  unfold search_document_chunks at hr
  have hr2 := List.take_subset _ _ hr
  have hr3 := (List.perm_insertionSort
    (fun a b : SearchResult => b.similarity ≤ a.similarity) _).subset hr2
  obtain ⟨c, hc, rfl⟩ := List.mem_map.mp hr3
  have hmem := List.mem_filter.mp hc
  simpa using hmem.2

/-- C1: user-scoping integrity: every chunk row written by
`embed_and_store_document(user_id, ...)` carries that `user_id`, equal to
the `user_id` of the document record it belongs to (the record whose id is
the row's `document_id`, present in the store after the call), and the
scoped search never returns a result whose `user_id` differs from the
queried `user_id`. -/
theorem user_scoping (sim : List ℚ → List ℚ → ℚ)
    (enc : List (List Char) → Except Err (List (List ℚ)))
    (st : Store) (uid fn : String) (text : List Char) (cs : Nat)
    (embs : List (List ℚ)) (qe : List ℚ) (uid2 : String) (k : Int)
    (hcs : 1 ≤ cs) (henc : enc (chunksList cs text) = Except.ok embs) :
    (∀ r ∈ mkRows st.nextId uid (chunksList cs text) embs,
        r.user_id = uid
        ∧ ∃ d ∈ (embed_and_store_document enc st uid fn text cs).1.documents,
            d.id = r.document_id ∧ d.user_id = r.user_id)
    ∧ (∀ r ∈ search_document_chunks sim st qe k uid2, r.user_id = uid2) := by
  constructor
  · intro r hr
    obtain ⟨hu, hd⟩ := mkRows_fields st.nextId uid (chunksList cs text) embs r hr
    refine ⟨hu, ⟨{ id := st.nextId, user_id := uid, filename := fn }, ?_, ?_, ?_⟩⟩
    · rw [embed_ok_eq enc st uid fn text cs embs (by omega) henc]
      exact List.mem_append_right _ (List.mem_singleton.mpr rfl)
    · rw [hd]
    · rw [hu]
  · exact fun r hr => search_result_scoped sim st qe k uid2 r hr

theorem user_scoping_witness :
    (SearchResult.user_id
      { user_id := "alice", chunk_text := "alpha facts".data,
        similarity := simDot [1, 1] [1, 2] }) = "alice" :=
  (user_scoping simDot encBatchOk storeAB "alice" "a.txt" "hello".data 3
    ((chunksList 3 "hello".data).map fun _ => [1]) [1, 1] "alice" 5
    (by omega) rfl).2 _ (List.mem_singleton.mpr rfl)

/-- C8: `search` (given a successful query embedding) returns an empty list
rather than an error both when `limit ≤ 0` and when the queried user has no
indexed chunks; and any successful result holds at most `limit` entries in
non-increasing similarity order. -/
theorem search_edge (sim : List ℚ → List ℚ → ℚ)
    (enc1 : List Char → Except Err (List ℚ)) (st : Store) (q : List Char)
    (uid : String) (limit : Int) (qe : List ℚ)
    (henc : enc1 q = Except.ok qe) :
    (limit ≤ 0 → search sim enc1 st q uid limit = Except.ok [])
    ∧ ((∀ c ∈ st.chunks, c.user_id ≠ uid) →
        search sim enc1 st q uid limit = Except.ok [])
    ∧ (∀ res, search sim enc1 st q uid limit = Except.ok res →
        res.length ≤ limit.toNat
        ∧ List.Sorted (fun a b => b.similarity ≤ a.similarity) res) := by
  have hsearch : search sim enc1 st q uid limit =
      Except.ok (search_document_chunks sim st qe limit uid) := by
    simp [search, henc]
  refine ⟨?_, ?_, ?_⟩
  · intro hl
    rw [hsearch]
    unfold search_document_chunks
    rw [Int.toNat_of_nonpos hl, List.take_zero]
  · intro hc
    rw [hsearch]
    unfold search_document_chunks
    have hf : st.chunks.filter (fun c => c.user_id == uid) = [] := by
      rw [List.filter_eq_nil_iff]
      intro c hcm
      simpa using hc c hcm
    rw [hf]
    simp
  · intro res hres
    rw [hsearch] at hres
    injection hres with h2
    subst h2
    constructor
    · exact List.length_take_le _ _
    · unfold search_document_chunks
      apply List.Pairwise.sublist (List.take_sublist _ _)
      haveI : IsTotal SearchResult (fun a b => b.similarity ≤ a.similarity) :=
        ⟨fun a b => le_total b.similarity a.similarity⟩
      haveI : IsTrans SearchResult (fun a b => b.similarity ≤ a.similarity) :=
        ⟨fun a b c h1 h2 => le_trans h2 h1⟩
      exact List.sorted_insertionSort _ _

theorem search_edge_witness :
    ([{ user_id := "alice", chunk_text := "alpha facts".data,
        similarity := simDot [1] [1, 2] }] : List SearchResult).length ≤ (5 : Int).toNat
    ∧ List.Sorted (fun a b : SearchResult => b.similarity ≤ a.similarity)
        [{ user_id := "alice", chunk_text := "alpha facts".data,
           similarity := simDot [1] [1, 2] }] :=
  (search_edge simDot encOneOk storeAB "anything".data "alice" 5 [1] rfl).2.2 _ rfl

lemma joinSep_length_ge (sep s : String) (l : List String) :
    s.length ≤ (joinSep sep (s :: l)).length := by
  cases l with
  | nil => simp [joinSep]
  | cons t rest =>
    show s.length ≤ (s ++ sep ++ joinSep sep (t :: rest)).length
    rw [String.length_append, String.length_append]
    omega

lemma formatChunk_length_ge (r : SearchResult) : 8 ≤ (formatChunk r).length := by
  unfold formatChunk
  rw [String.length_append, String.length_append, String.length_append,
    String.length_append]
  have h8 : ("[Chunk]\n" : String).length = 8 := rfl
  omega

lemma joinSep_format_ne_empty (r : SearchResult) (rest : List SearchResult) :
    joinSep "\n\n---\n\n" ((r :: rest).map formatChunk) ≠ "" := by
  intro hcon
  have h1 : 8 ≤ (joinSep "\n\n---\n\n" ((r :: rest).map formatChunk)).length := by
    rw [List.map_cons]
    exact le_trans (formatChunk_length_ge r) (joinSep_length_ge _ _ _)
  rw [hcon] at h1
  simp at h1

/-- C3: `get_context` yields the empty string exactly when the underlying
search returned no results; on a non-empty result list it yields the
separator-joined formatted blocks, one per result in the order search
returned them, each block carrying the chunk text and its similarity score
rounded to three decimal digits. -/
theorem context_format (sim : List ℚ → List ℚ → ℚ)
    (enc1 : List Char → Except Err (List ℚ)) (st : Store) (q : List Char)
    (uid : String) (k : Int) (res : List SearchResult)
    (hs : search sim enc1 st q uid k = Except.ok res) :
    (res = [] → get_context sim enc1 st q uid k = Except.ok "")
    ∧ (res ≠ [] →
        get_context sim enc1 st q uid k =
          Except.ok (joinSep "\n\n---\n\n" (res.map formatChunk))
        ∧ joinSep "\n\n---\n\n" (res.map formatChunk) ≠ "")
    ∧ (∀ r : SearchResult, formatChunk r =
        "[Chunk]\n" ++ String.mk r.chunk_text ++ " (score=" ++
          toString (round3 r.similarity) ++ ")") := by
  refine ⟨?_, ?_, fun r => rfl⟩
  · intro h
    subst h
    simp [get_context, hs]
  · intro h
    obtain ⟨r, rest, rfl⟩ := List.exists_cons_of_ne_nil h
    have hne : (r :: rest).isEmpty = false := rfl
    exact ⟨by simp [get_context, hs, hne], joinSep_format_ne_empty r rest⟩

theorem context_format_witness :
    get_context simDot encOneOk storeAB "anything".data "alice" 5 =
      Except.ok (joinSep "\n\n---\n\n"
        (([{ user_id := "alice", chunk_text := "alpha facts".data,
             similarity := simDot [1] [1, 2] }] : List SearchResult).map formatChunk))
    ∧ joinSep "\n\n---\n\n"
        (([{ user_id := "alice", chunk_text := "alpha facts".data,
             similarity := simDot [1] [1, 2] }] : List SearchResult).map formatChunk) ≠ "" :=
  (context_format simDot encOneOk storeAB "anything".data "alice" 5
    [{ user_id := "alice", chunk_text := "alpha facts".data,
       similarity := simDot [1] [1, 2] }] rfl).2.1 (by simp)

theorem chunking_spec_witness :
    chunkText 3 "ABCDEFGHIJ".data = Except.ok (chunksList 3 "ABCDEFGHIJ".data)
    ∧ (chunksList 3 "ABCDEFGHIJ".data).flatten = "ABCDEFGHIJ".data :=
  ⟨(chunking_spec "ABCDEFGHIJ".data 3 (by omega)).1,
   (chunking_spec "ABCDEFGHIJ".data 3 (by omega)).2.1⟩
